import Mathlib

/-!
Verification of the VanishBin backend (Node.js/Express/MongoDB/Supabase).

This file gives a shallow embedding of the expiration, retrieval, listing,
cleanup (reaper), device-fingerprinting and speed-limiting logic of the
backend, translated from:
  Backend/models/Share.js
  Backend/controllers/shareController.js
  Backend/services/cleanupService.js
  Backend/utils/deviceFingerprint.js
  Backend/middleware/rateLimiting.js

Timestamps are modelled as natural numbers (milliseconds since the epoch).
Mongoose documents become Lean structures; `null`-able fields become
`Option`; JavaScript string truthiness (the empty string is falsy) is
modelled explicitly.
-/

namespace VanishBin

/-- The fixed time-to-live: 3 hours = 10800000 ms (the literal used
throughout `shareController.js` and `Share.js`). -/
def TTL : Nat := 10800000

/-- JavaScript truthiness of a possibly-absent string: `undefined`/`null`
and the empty string are falsy, every other string is truthy. -/
def truthy : Option String → Bool
  | none => false
  | some s => !s.isEmpty

/-- JavaScript `a || b` for a possibly-absent string `a` and a string
fallback `b`: yields `b` when `a` is absent or empty. -/
def jsOr (a : Option String) (b : String) : String :=
  match a with
  | some s => if s.isEmpty then b else s
  | none => b

/-- JavaScript `String.prototype.trim`: strip leading and trailing
whitespace (modelled over the character list). -/
def jsTrim (s : String) : String :=
  String.mk (((s.data.dropWhile Char.isWhitespace).reverse.dropWhile
    Char.isWhitespace).reverse)

/-- JavaScript `s.substring(0, n)` (an initial segment of the string). -/
def jsSubstring (s : String) (n : Nat) : String :=
  String.mk (s.data.take n)

/-- A share document, from the mongoose schema in `Backend/models/Share.js`.
The schema has no password field of any kind. `id` models the MongoDB
`_id`. -/
structure Share where
  id : Nat
  title : String
  content : Option String
  fileUrl : Option String
  supabaseFilePath : Option String
  originalFileName : Option String
  fileSize : Option Nat
  mimeType : Option String
  createdAt : Nat
  expiresAt : Nat
deriving DecidableEq, Repr

/-- `Share.findById`: first document with the given `_id` (MongoDB ids are
unique, so with a `Nodup` store the first match is the only one). -/
def findById (store : List Share) (id : Nat) : Option Share :=
  store.find? (fun s => s.id == id)

/-- The parsed body of a `POST /upload` request. A `password` field may be
sent by the client (the frontend sends one and the README documents
password protection), but `uploadContent` never reads it. -/
structure UploadBody where
  text : Option String
  title : Option String
  password : Option String
deriving DecidableEq, Repr

/-- `req.file` as produced by multer. -/
structure FileInfo where
  originalname : String
  size : Nat
  mimetype : String
deriving DecidableEq, Repr

/-- `req.supabaseFile` as produced by the `uploadToSupabase` middleware. -/
structure SupabaseFileInfo where
  path : String
  publicUrl : String
deriving DecidableEq, Repr

/-- The `201` response body of `uploadContent` (flattened: the `data`
sub-object's fields appear directly). -/
structure UploadResponse where
  success : Bool
  id : Nat
  shareLink : String
  expiresAt : Nat
  title : String
  hasText : Bool
  hasFile : Bool
  originalFileName : Option String
  fileSize : Option Nat
  mimeType : Option String
deriving DecidableEq, Repr

/-- The outcome of `uploadContent`: a `400` with an error message, or a
`201` with the response body. -/
inductive UploadResult where
  | badRequest (error : String)
  | created (resp : UploadResponse)
deriving DecidableEq, Repr

/-- `uploadContent` from `Backend/controllers/shareController.js`
(POST /upload). `newId` is the `_id` MongoDB assigns to the saved
document and `now` the creation instant (both schema defaults
`createdAt` and `expiresAt` of `Share.js` are evaluated at that
instant). Returns the HTTP outcome and the updated store. -/
def uploadContent (newId now : Nat) (body : UploadBody)
    (file : Option FileInfo) (supabaseFile : Option SupabaseFileInfo)
    (store : List Share) : UploadResult × List Share :=
  if !truthy body.text && file.isNone then
    (.badRequest "Either text content or file must be provided", store)
  else
    match body.title with
    | none => (.badRequest "Title is required", store)
    | some t =>
      if (jsTrim t).isEmpty then (.badRequest "Title is required", store)
      else
        let withFile := file.isSome && supabaseFile.isSome
        let newShare : Share :=
          { id := newId
            title := jsTrim t
            content := if truthy body.text then body.text else none
            fileUrl := if withFile then (supabaseFile.map (·.publicUrl)) else none
            supabaseFilePath := if withFile then (supabaseFile.map (·.path)) else none
            originalFileName := if withFile then (file.map (·.originalname)) else none
            fileSize := if withFile then (file.map (·.size)) else none
            mimeType := if withFile then (file.map (·.mimetype)) else none
            createdAt := now
            expiresAt := now + TTL }
        (.created
          { success := true
            id := newId
            shareLink := "/view/" ++ toString newId
            expiresAt := newShare.createdAt + TTL
            title := newShare.title
            hasText := truthy newShare.content
            hasFile := truthy newShare.fileUrl
            originalFileName := newShare.originalFileName
            fileSize := newShare.fileSize
            mimeType := newShare.mimeType },
         newShare :: store)

/-- The `file` sub-object of a `200` response of `getContent`. -/
structure FilePayload where
  url : String
  originalName : Option String
  size : Option Nat
  mimeType : Option String
deriving DecidableEq, Repr

/-- The `200` response body of `getContent`. -/
structure ContentPayload where
  success : Bool
  id : Nat
  title : String
  createdAt : Nat
  expiresAt : Nat
  text : Option String
  file : Option FilePayload
deriving DecidableEq, Repr

/-- The outcome of `getContent`: `404`, `410`, or `200`. The controller
has no `401` branch of any kind. -/
inductive GetResult where
  | notFound (error : String)
  | gone (error : String)
  | ok (payload : ContentPayload)
deriving DecidableEq, Repr

/-- `true` exactly on the `404`/`410` outcomes of `getContent`. -/
def GetResult.isNotFoundOrGone : GetResult → Bool
  | .notFound _ => true
  | .gone _ => true
  | .ok _ => false

/-- `getContent` from `Backend/controllers/shareController.js`
(GET /:id). The query password is accepted (the frontend sends
`?password=`) but the controller only reads `req.params.id`, so the
argument is unused. Expiry is recomputed as `createdAt + 10800000`;
the stored `expiresAt` field is never consulted. -/
def getContent (store : List Share) (id : Nat) (_password : Option String)
    (now : Nat) : GetResult :=
  match findById store id with
  | none => .notFound "Content not found or has expired"
  | some share =>
    let expiryTime := share.createdAt + TTL
    if expiryTime < now then .gone "Content has expired"
    else
      .ok { success := true
            id := share.id
            title := share.title
            createdAt := share.createdAt
            expiresAt := expiryTime
            text := if truthy share.content then share.content else none
            file :=
              if truthy share.fileUrl then
                some { url := (share.fileUrl).getD ""
                       originalName := share.originalFileName
                       size := share.fileSize
                       mimeType := share.mimeType }
              else none }

/-- The outcome of `serveFile`: `404`, `410`, a redirect to the Supabase
public URL, or a local-file send (legacy fallback). -/
inductive FileResult where
  | notFound (error : String)
  | gone (error : String)
  | redirect (url : String)
  | sendLocal (path : String) (fileName : Option String) (contentType : String)
deriving DecidableEq, Repr

/-- JavaScript `String.prototype.includes` (substring containment). -/
def strIncludes (s sub : String) : Bool :=
  decide (List.IsInfix sub.data s.data)

/-- `serveFile` from `Backend/controllers/shareController.js`
(GET /file/:id). `fsExists` models `fs.existsSync` and `dirname` the
`path.flatten(__dirname, '..', share.fileUrl)` base for legacy local
files. -/
def serveFile (fsExists : String → Bool) (dirname : String)
    (store : List Share) (id : Nat) (now : Nat) : FileResult :=
  match findById store id with
  | none => .notFound "File not found or has expired"
  | some share =>
    if !truthy share.fileUrl then .notFound "File not found or has expired"
    else
      let url := (share.fileUrl).getD ""
      let expiryTime := share.createdAt + TTL
      if expiryTime < now then .gone "File has expired"
      else if strIncludes url "supabase" then .redirect url
      else
        let filePath := dirname ++ "/" ++ url
        if !fsExists filePath then .notFound "File not found on server"
        else .sendLocal filePath share.originalFileName
              ((share.mimeType).getD "application/octet-stream")

/-- One entry of the `GET /all` listing (a lightweight preview). -/
structure SharePreview where
  id : Nat
  title : String
  hasText : Bool
  hasFile : Bool
  originalFileName : Option String
  fileSize : Option Nat
  mimeType : Option String
  createdAt : Nat
  expiresAt : Nat
  textPreview : Option String
deriving DecidableEq, Repr

/-- The `pagination` sub-object of the `GET /all` response. -/
structure Pagination where
  currentPage : Nat
  totalPages : Nat
  totalShares : Nat
  hasNext : Bool
  hasPrev : Bool
deriving DecidableEq, Repr

/-- The `GET /all` response body. -/
structure AllSharesResponse where
  success : Bool
  shares : List SharePreview
  pagination : Pagination
deriving DecidableEq, Repr

/-- JavaScript `parseInt(q) || d`: an absent query value parses to `NaN`
(falsy) and `0` is falsy, so both yield the default. -/
def jsOrNum (q : Option Nat) (d : Nat) : Nat :=
  match q with
  | none => d
  | some 0 => d
  | some n => n

/-- Newest-first ordering on shares (`.sort({ createdAt: -1 })`). -/
def newerFirst (a b : Share) : Prop := b.createdAt ≤ a.createdAt

instance : DecidableRel newerFirst := fun a b => Nat.decLe b.createdAt a.createdAt

instance : IsTotal Share newerFirst := ⟨fun a b => Nat.le_total b.createdAt a.createdAt⟩

instance : IsTrans Share newerFirst :=
  ⟨fun _ _ _ h1 h2 => Nat.le_trans h2 h1⟩

/-- The store sorted newest-first by creation time. -/
def sortByCreatedDesc (store : List Share) : List Share :=
  store.insertionSort newerFirst

/-- The preview object `getAllShares` builds for one share (first 100
characters of the text, with an ellipsis when truncated). -/
def preview (share : Share) : SharePreview :=
  { id := share.id
    title := share.title
    hasText := truthy share.content
    hasFile := truthy share.fileUrl
    originalFileName := share.originalFileName
    fileSize := share.fileSize
    mimeType := share.mimeType
    createdAt := share.createdAt
    expiresAt := share.createdAt + TTL
    textPreview :=
      if truthy share.content then
        let c := (share.content).getD ""
        some (jsSubstring c 100 ++ (if 100 < c.data.length then "..." else ""))
      else none }

/-- `getAllShares` from `Backend/controllers/shareController.js`
(GET /all?page=&limit=). The page slice is taken over the full sorted
collection, the expired ones are then filtered out of the slice, and
`totalShares`/`hasNext`/`totalPages` are computed with
`countDocuments({})`, i.e. over all stored records, expired ones
included. -/
def getAllShares (store : List Share) (pageQ limitQ : Option Nat)
    (now : Nat) : AllSharesResponse :=
  let page := jsOrNum pageQ 1
  let limit := jsOrNum limitQ 20
  let skip := (page - 1) * limit
  let shares := ((sortByCreatedDesc store).drop skip).take limit
  let validShares :=
    (shares.filter (fun s => now ≤ s.createdAt + TTL)).map preview
  let totalShares := store.length
  { success := true
    shares := validShares
    pagination :=
      { currentPage := page
        totalPages := (totalShares + limit - 1) / limit
        totalShares := totalShares
        hasNext := decide (page * limit < totalShares)
        hasPrev := decide (1 < page) } }

/-! ### The cleanup service (Reaper), from `Backend/services/cleanupService.js` -/

/-- The system state the Reaper acts on: the metadata store plus the set
of blob paths currently present in the external object store. -/
structure SysState where
  shares : List Share
  blobs : List String
deriving DecidableEq, Repr

/-- An observable deletion event, used to state ordering properties of a
Reaper run. -/
inductive Event where
  | blobDel (path : String)
  | metaDel (id : Nat)
deriving DecidableEq, Repr

/-- The summary object a Reaper run returns (`timestamp` omitted). -/
structure CleanupSummary where
  success : Bool
  deletedShares : Nat
  deletedFiles : Nat
  totalExpired : Nat
  errors : List String
deriving DecidableEq, Repr

/-- Modelled from the spec: the Blob Store Adapter's `delete(path)`
(`config/supabase.js` is not part of the sources; §4.5 specifies
`delete(path) -> Success | Error`, safely callable on an
already-deleted path, "not found" treated as success). `blobFail`
is the failure oracle for this run: `deleteFile` reports an error
exactly on the paths `blobFail` selects, and otherwise removes the
path from the blob store (a no-op if already absent). -/
def deleteFile (blobFail : String → Bool) (path : String)
    (st : SysState) : Bool × SysState :=
  if blobFail path then (true, st)
  else (false, { st with blobs := st.blobs.filter (fun p => p != path) })

/-- `Share.findByIdAndDelete` together with the `findOneAndDelete`
pre-hook of `Backend/models/Share.js`: the hook looks the document up
and, when it carries a Supabase path, deletes that blob (ignoring any
error); then the document is removed. Returns the new state and the
deletion events in order. -/
def findByIdAndDelete (blobFail : String → Bool) (st : SysState)
    (id : Nat) : SysState × List Event :=
  match findById st.shares id with
  | none => (st, [])
  | some doc =>
    let st1 :=
      match doc.supabaseFilePath with
      | some p => (deleteFile blobFail p st).2
      | none => st
    let hookEvents :=
      match doc.supabaseFilePath with
      | some p => [Event.blobDel p]
      | none => ([] : List Event)
    ({ st1 with shares := st1.shares.filter (fun s => s.id != id) },
     hookEvents ++ [Event.metaDel id])

/-- The error message `cleanupExpiredShares` records for a failed blob
delete (the dynamic `error.message` suffix is abstracted away). -/
def failMsg (p : String) : String := "File deletion failed for " ++ p

/-- The accumulator of the Reaper's per-item loop. -/
structure LoopAcc where
  st : SysState
  deletedCount : Nat
  fileDeletedCount : Nat
  errors : List String
  trace : List Event

/-- One iteration of the Reaper's loop over an expired share: delete the
blob first when a Supabase path is present (recording a failure but
proceeding regardless), then delete the metadata document. -/
def cleanupItem (blobFail : String → Bool) (acc : LoopAcc)
    (share : Share) : LoopAcc :=
  let acc1 :=
    match share.supabaseFilePath with
    | some p =>
      if (deleteFile blobFail p acc.st).1 then
        { acc with st := (deleteFile blobFail p acc.st).2,
                   errors := acc.errors ++ [failMsg p],
                   trace := acc.trace ++ [Event.blobDel p] }
      else
        { acc with st := (deleteFile blobFail p acc.st).2,
                   fileDeletedCount := acc.fileDeletedCount + 1,
                   trace := acc.trace ++ [Event.blobDel p] }
    | none => acc
  { acc1 with st := (findByIdAndDelete blobFail acc1.st share.id).1,
              deletedCount := acc1.deletedCount + 1,
              trace := acc1.trace ++ (findByIdAndDelete blobFail acc1.st share.id).2 }

/-- The Reaper's selection query: `Share.find({ expiresAt: { $lt: now } })`
— selection is by the stored `expiresAt` field. -/
def expiredQuery (shares : List Share) (now : Nat) : List Share :=
  shares.filter (fun s => decide (s.expiresAt < now))

/-- `cleanupExpiredShares` from `Backend/services/cleanupService.js`:
select the expired records, loop over them, and return the summary,
the final state and the event trace. -/
def cleanupExpiredShares (blobFail : String → Bool) (st : SysState)
    (now : Nat) : CleanupSummary × SysState × List Event :=
  let expired := expiredQuery st.shares now
  let acc := expired.foldl (cleanupItem blobFail)
    { st := st, deletedCount := 0, fileDeletedCount := 0, errors := [], trace := [] }
  ({ success := true
     deletedShares := acc.deletedCount
     deletedFiles := acc.fileDeletedCount
     totalExpired := expired.length
     errors := acc.errors },
   acc.st, acc.trace)

/-! ### Device fingerprinting, from `Backend/utils/deviceFingerprint.js`

The digest is Node's `crypto.createHash('sha256').update(...).digest('hex')`;
SHA-256 (FIPS 180-4) is implemented below over `Nat` with explicit
`% 2^32` arithmetic, and strings are encoded to bytes with UTF-8. -/

/-- The UTF-8 encoding of one character, as a list of byte values. -/
def utf8EncodeChar (c : Char) : List Nat :=
  let n := c.toNat
  if n < 128 then [n]
  else if n < 2048 then [192 + n / 64, 128 + n % 64]
  else if n < 65536 then
    [224 + n / 4096, 128 + (n / 64) % 64, 128 + n % 64]
  else
    [240 + n / 262144, 128 + (n / 4096) % 64, 128 + (n / 64) % 64, 128 + n % 64]

/-- The UTF-8 encoding of a string, as a list of byte values. -/
def utf8Bytes (s : String) : List Nat :=
  (s.data.map utf8EncodeChar).flatten

/-- Truncation to a 32-bit word. -/
def w32 (n : Nat) : Nat := n % 4294967296

/-- Right rotation of a 32-bit word. -/
def rotr (x n : Nat) : Nat := w32 ((x >>> n) ||| (x <<< (32 - n)))

/-- The SHA-256 initial hash value (fractional parts of the square roots
of the first eight primes). -/
def sha256H0 : List Nat :=
  [1779033703, 3144134277, 1013904242, 2773480762,
   1359893119, 2600822924, 528734635, 1541459225]

/-- The SHA-256 round constants (fractional parts of the cube roots of the
first sixty-four primes). -/
def sha256K : List Nat :=
  [1116352408, 1899447441, 3049323471, 3921009573, 961987163, 1508970993, 2453635748, 2870763221,
   3624381080, 310598401, 607225278, 1426881987, 1925078388, 2162078206, 2614888103, 3248222580,
   3835390401, 4022224774, 264347078, 604807628, 770255983, 1249150122, 1555081692, 1996064986,
   2554220882, 2821834349, 2952996808, 3210313671, 3336571891, 3584528711, 113926993, 338241895,
   666307205, 773529912, 1294757372, 1396182291, 1695183700, 1986661051, 2177026350, 2456956037,
   2730485921, 2820302411, 3259730800, 3345764771, 3516065817, 3600352804, 4094571909, 275423344,
   430227734, 506948616, 659060556, 883997877, 958139571, 1322822218, 1537002063, 1747873779,
   1955562222, 2024104815, 2227730452, 2361852424, 2428436474, 2756734187, 3204031479, 3329325298]

/-- A 64-bit big-endian byte rendering (for the padded length field). -/
def be64 (n : Nat) : List Nat :=
  [n / 72057594037927936 % 256, n / 281474976710656 % 256,
   n / 1099511627776 % 256, n / 4294967296 % 256,
   n / 16777216 % 256, n / 65536 % 256, n / 256 % 256, n % 256]

/-- A 32-bit big-endian byte rendering (for the final digest words). -/
def be32 (n : Nat) : List Nat :=
  [n / 16777216 % 256, n / 65536 % 256, n / 256 % 256, n % 256]

/-- SHA-256 message padding: `0x80`, zeros to 56 mod 64, then the bit
length on 64 bits. -/
def padMessage (msg : List Nat) : List Nat :=
  let len := msg.length
  let padZeros := (120 - (len + 1) % 64) % 64
  msg ++ [128] ++ List.replicate padZeros 0 ++ be64 (8 * len)

/-- Split a byte list into successive 64-byte blocks. -/
def chunks64 : List Nat → List (List Nat)
  | [] => []
  | x :: xs =>
    ((x :: xs).take 64) :: chunks64 ((x :: xs).drop 64)
termination_by l => l.length
decreasing_by simp [List.length_drop]; omega

/-- Assemble big-endian 32-bit words from a byte list. -/
def toWords : List Nat → List Nat
  | b0 :: b1 :: b2 :: b3 :: rest =>
    (b0 * 16777216 + b1 * 65536 + b2 * 256 + b3) :: toWords rest
  | _ => []

/-- The next message-schedule word from the current schedule. -/
def nextW (w : List Nat) : Nat :=
  let t := w.length
  let x15 := w.getD (t - 15) 0
  let x2 := w.getD (t - 2) 0
  let s0 := (rotr x15 7) ^^^ (rotr x15 18) ^^^ (x15 >>> 3)
  let s1 := (rotr x2 17) ^^^ (rotr x2 19) ^^^ (x2 >>> 10)
  w32 (w.getD (t - 16) 0 + s0 + w.getD (t - 7) 0 + s1)

/-- Extend the 16 block words to the full 64-word schedule. -/
def fullSchedule (ws : List Nat) : List Nat :=
  (List.range 48).foldl (fun w _ => w ++ [nextW w]) ws

/-- One SHA-256 compression round: the state is the eight working
variables `a..h`. -/
def compressStep (st : List Nat) (wk : Nat × Nat) : List Nat :=
  let a := st.getD 0 0
  let b := st.getD 1 0
  let c := st.getD 2 0
  let d := st.getD 3 0
  let e := st.getD 4 0
  let f := st.getD 5 0
  let g := st.getD 6 0
  let h := st.getD 7 0
  let s1 := (rotr e 6) ^^^ (rotr e 11) ^^^ (rotr e 25)
  let ch := (e &&& f) ^^^ ((4294967295 - e) &&& g)
  let t1 := w32 (h + s1 + ch + wk.2 + wk.1)
  let s0 := (rotr a 2) ^^^ (rotr a 13) ^^^ (rotr a 22)
  let mj := (a &&& b) ^^^ (a &&& c) ^^^ (b &&& c)
  let t2 := w32 (s0 + mj)
  [w32 (t1 + t2), a, b, c, w32 (d + t1), e, f, g]

/-- Process one 64-byte block: run the 64 rounds and add the result into
the running hash. -/
def processBlock (h : List Nat) (block : List Nat) : List Nat :=
  let ws := fullSchedule (toWords block)
  let st := (ws.zip sha256K).foldl compressStep h
  (h.zip st).map (fun p => w32 (p.1 + p.2))

/-- The SHA-256 digest of a byte list, as 32 bytes. -/
def sha256Bytes (msg : List Nat) : List Nat :=
  (((chunks64 (padMessage msg)).foldl processBlock sha256H0).map be32).flatten

/-- The lowercase hexadecimal digit character of `n % 16` (digits `0`-`9`
are code points 48-57, letters `a`-`f` are 97-102). -/
def hexChar (n : Nat) : Char :=
  if n % 16 < 10 then Char.ofNat (48 + n % 16) else Char.ofNat (87 + n % 16)

/-- The nibble sequence of a byte list (high nibble first). -/
def nibbles (bytes : List Nat) : List Nat :=
  (bytes.map (fun b => [b / 16 % 16, b % 16])).flatten

/-- `crypto.createHash('sha256').update(s).digest('hex')`. -/
def sha256Hex (s : String) : String :=
  String.mk ((nibbles (sha256Bytes (utf8Bytes s))).map hexChar)

/-- An incoming HTTP request, reduced to the fields the fingerprinting
code reads. Header fields are `Option String` (`none` = header absent).
`arrivalTime` and `seq` record when and in which order the request
arrived; no fingerprinting function reads them. -/
structure Req where
  ip : Option String
  connectionRemoteAddress : Option String
  socketRemoteAddress : Option String
  userAgent : Option String
  acceptLanguage : Option String
  acceptEncoding : Option String
  connection : Option String
  dnt : Option String
  upgradeInsecureRequests : Option String
  secFetchSite : Option String
  secFetchMode : Option String
  secFetchDest : Option String
  xScreenResolution : Option String
  xTimezone : Option String
  xForwardedFor : Option String
  xRealIP : Option String
  cfConnectingIP : Option String
  xClientIP : Option String
  arrivalTime : Nat
  seq : Nat
deriving DecidableEq, Repr

/-- The component list of `generateDeviceFingerprint`: the address chain
and the four primary headers fall back to `"unknown"`, the remaining
headers fall back to the empty string. -/
def components (r : Req) : List String :=
  [jsOr r.ip (jsOr r.connectionRemoteAddress (jsOr r.socketRemoteAddress "unknown")),
   jsOr r.userAgent "unknown",
   jsOr r.acceptLanguage "unknown",
   jsOr r.acceptEncoding "unknown",
   jsOr r.connection "unknown",
   jsOr r.dnt "",
   jsOr r.upgradeInsecureRequests "",
   jsOr r.secFetchSite "",
   jsOr r.secFetchMode "",
   jsOr r.secFetchDest "",
   jsOr r.xScreenResolution "",
   jsOr r.xTimezone ""]

/-- JavaScript `Array.prototype.join('|')`. -/
def joinBar : List String → String
  | [] => ""
  | [x] => x
  | x :: y :: xs => x ++ "|" ++ joinBar (y :: xs)

/-- `generateDeviceFingerprint`: the SHA-256 hex digest of the components
joined with `'|'`. -/
def generateDeviceFingerprint (r : Req) : String :=
  sha256Hex (joinBar (components r))

/-- The first comma-separated entry of `X-Forwarded-For`, trimmed
(`req.get('X-Forwarded-For')?.split(',')[0]?.trim()`). -/
def xffFirst (o : Option String) : Option String :=
  o.map (fun s => jsTrim (String.mk (s.data.takeWhile (fun c => c != ','))))

/-- `getRealIP`: the proxy-header preference chain with `req.ip` and the
transport addresses as fallbacks. -/
def getRealIP (r : Req) : String :=
  jsOr (xffFirst r.xForwardedFor)
    (jsOr r.xRealIP
      (jsOr r.cfConnectingIP
        (jsOr r.xClientIP
          (jsOr r.ip
            (jsOr r.connectionRemoteAddress
              (jsOr r.socketRemoteAddress "unknown"))))))

/-- `getEnhancedRateLimitKey`: the real client address joined with the
first 12 hex characters of the device fingerprint. -/
def getEnhancedRateLimitKey (r : Req) : String :=
  getRealIP r ++ ":" ++ jsSubstring (generateDeviceFingerprint r) 12

/-- Equality of the `(address, headers)` input tuples of two requests
(everything except arrival time and sequence number). -/
def sameTuple (r1 r2 : Req) : Prop :=
  r1.ip = r2.ip ∧ r1.connectionRemoteAddress = r2.connectionRemoteAddress ∧
  r1.socketRemoteAddress = r2.socketRemoteAddress ∧ r1.userAgent = r2.userAgent ∧
  r1.acceptLanguage = r2.acceptLanguage ∧ r1.acceptEncoding = r2.acceptEncoding ∧
  r1.connection = r2.connection ∧ r1.dnt = r2.dnt ∧
  r1.upgradeInsecureRequests = r2.upgradeInsecureRequests ∧
  r1.secFetchSite = r2.secFetchSite ∧ r1.secFetchMode = r2.secFetchMode ∧
  r1.secFetchDest = r2.secFetchDest ∧ r1.xScreenResolution = r2.xScreenResolution ∧
  r1.xTimezone = r2.xTimezone ∧ r1.xForwardedFor = r2.xForwardedFor ∧
  r1.xRealIP = r2.xRealIP ∧ r1.cfConnectingIP = r2.cfConnectingIP ∧
  r1.xClientIP = r2.xClientIP

/-- The two tuples agree everywhere except possibly at the `User-Agent`
header. -/
def sameExceptUA (r1 r2 : Req) : Prop :=
  r1.ip = r2.ip ∧ r1.connectionRemoteAddress = r2.connectionRemoteAddress ∧
  r1.socketRemoteAddress = r2.socketRemoteAddress ∧
  r1.acceptLanguage = r2.acceptLanguage ∧ r1.acceptEncoding = r2.acceptEncoding ∧
  r1.connection = r2.connection ∧ r1.dnt = r2.dnt ∧
  r1.upgradeInsecureRequests = r2.upgradeInsecureRequests ∧
  r1.secFetchSite = r2.secFetchSite ∧ r1.secFetchMode = r2.secFetchMode ∧
  r1.secFetchDest = r2.secFetchDest ∧ r1.xScreenResolution = r2.xScreenResolution ∧
  r1.xTimezone = r2.xTimezone ∧ r1.xForwardedFor = r2.xForwardedFor ∧
  r1.xRealIP = r2.xRealIP ∧ r1.cfConnectingIP = r2.cfConnectingIP ∧
  r1.xClientIP = r2.xClientIP

/-! ### Speed limiting, from `Backend/middleware/rateLimiting.js` -/

/-- The resolved configuration of a speed limiter. `delayMs` is a function
of the number of requests used in the window, as in express-slow-down
v2 ("new syntax"). -/
structure SpeedLimitOpts where
  windowMs : Nat
  delayAfter : Nat
  delayMs : Nat → Nat
  maxDelayMs : Nat

/-- The option overrides `createSpeedLimit` accepts. -/
structure SpeedLimitOverrides where
  windowMs : Option Nat
  delayAfter : Option Nat
  delayMs : Option (Nat → Nat)
  maxDelayMs : Option Nat

/-- `createSpeedLimit`: destructuring with the defaults of
`rateLimiting.js` (15-minute window, delay after 5, constant 500 ms
delay, 10 s cap). -/
def createSpeedLimit (o : SpeedLimitOverrides) : SpeedLimitOpts :=
  { windowMs := o.windowMs.getD 900000
    delayAfter := o.delayAfter.getD 5
    delayMs := o.delayMs.getD (fun _ => 500)
    maxDelayMs := o.maxDelayMs.getD 10000 }

/-- `uploadSpeedLimit`: delay after 3 uploads, constant 1000 ms delay
(`delayMs: () => 1000`, the express-slow-down v2 "new syntax" with its
validation warning disabled), 30 s cap. -/
def uploadSpeedLimit : SpeedLimitOpts :=
  createSpeedLimit
    { windowMs := some 900000
      delayAfter := some 3
      delayMs := some (fun _ => 1000)
      maxDelayMs := some 30000 }

/-- Modelled from express-slow-down v2 (a third-party dependency): when
the number of requests used in the current window exceeds
`delayAfter`, the applied delay is the configured `delayMs` evaluated
at that count, clamped at `maxDelayMs`; otherwise no delay. -/
def slowDownDelay (opts : SpeedLimitOpts) (used : Nat) : Nat :=
  if opts.delayAfter < used then min (opts.delayMs used) opts.maxDelayMs
  else 0

/-- `true` exactly on the `400` outcome of `uploadContent`. -/
def UploadResult.isBadRequest : UploadResult → Bool
  | .badRequest _ => true
  | .created _ => false

/-- An expired share contributes to `deletedFiles` exactly when it has a
blob path whose delete succeeds. -/
def fileDelPred (bf : String → Bool) (s : Share) : Bool :=
  match s.supabaseFilePath with
  | some p => !(bf p)
  | none => false

/-! ### Sample data used in concrete theorems -/

/-- A text-only share created at time 0. -/
def sampleShare : Share :=
  { id := 1, title := "t", content := some "hello", fileUrl := none,
    supabaseFilePath := none, originalFileName := none, fileSize := none,
    mimeType := none, createdAt := 0, expiresAt := TTL }

/-- A file share created at time 5000. -/
def shareB : Share :=
  { id := 2, title := "u", content := none,
    fileUrl := some "https://proj.supabase.co/storage/b.bin",
    supabaseFilePath := some "shares/b.bin",
    originalFileName := some "b.bin", fileSize := some 5,
    mimeType := some "application/octet-stream",
    createdAt := 5000, expiresAt := 5000 + TTL }

/-- A request with every header absent. -/
def baseReq : Req :=
  { ip := none, connectionRemoteAddress := none, socketRemoteAddress := none,
    userAgent := none, acceptLanguage := none, acceptEncoding := none,
    connection := none, dnt := none, upgradeInsecureRequests := none,
    secFetchSite := none, secFetchMode := none, secFetchDest := none,
    xScreenResolution := none, xTimezone := none, xForwardedFor := none,
    xRealIP := none, cfConnectingIP := none, xClientIP := none,
    arrivalTime := 0, seq := 0 }

/-- `baseReq` with the User-Agent header set to the literal string
`"unknown"`. -/
def reqLiteralUnknownUA : Req := { baseReq with userAgent := some "unknown" }

/-- `baseReq` arriving later and with a different sequence number
(identical `(address, headers)` tuple). -/
def laterReq : Req := { baseReq with arrivalTime := 5, seq := 7 }

/-- `baseReq` with a Chrome-like User-Agent. -/
def reqChromeUA : Req := { baseReq with userAgent := some "Chrome" }

/-- `baseReq` with a Firefox-like User-Agent. -/
def reqFirefoxUA : Req := { baseReq with userAgent := some "Firefox" }

/-! ### Theorems -/

/-! Helper lemmas about the Reaper loop. -/

theorem getElem?_append_middle {α : Type} (A R : List α) (k : Nat) :
    (A ++ R)[A.length + k]? = R[k]? := by
  have h : ¬ (A.length + k < A.length) := by omega
  rw [List.getElem?_append, if_neg h]
  congr 1
  omega

theorem findById_of_nodup (l : List Share) (s : Share)
    (hnd : (l.map Share.id).Nodup) (hm : s ∈ l) :
    findById l s.id = some s := by
  induction l with
  | nil => cases hm
  | cons x xs ih =>
    have hnd' : x.id ∉ xs.map Share.id ∧ (xs.map Share.id).Nodup := by
      simp only [List.map_cons] at hnd
      exact List.nodup_cons.mp hnd
    rcases List.mem_cons.mp hm with h | h
    · subst h
      show (s :: xs).find? (fun s' => s'.id == s.id) = some s
      exact List.find?_cons_of_pos xs (by simp)
    · have hx : ¬ ((fun s' : Share => s'.id == s.id) x = true) := by
        simp only [beq_iff_eq]
        intro he
        exact hnd'.1 (he ▸ List.mem_map.mpr ⟨s, h, rfl⟩)
      show (x :: xs).find? (fun s' => s'.id == s.id) = some s
      rw [List.find?_cons_of_neg xs hx]
      exact ih hnd'.2 h

theorem deleteFile_shares (bf : String → Bool) (p : String) (st : SysState) :
    ((deleteFile bf p st).2).shares = st.shares := by
  unfold deleteFile
  split <;> rfl

theorem deleteFile_fst (bf : String → Bool) (p : String) (st : SysState) :
    (deleteFile bf p st).1 = bf p := by
  unfold deleteFile
  split <;> simp_all

theorem findByIdAndDelete_shares_cases (bf : String → Bool) (st : SysState)
    (id : Nat) :
    (findByIdAndDelete bf st id).1.shares = st.shares ∨
    (findByIdAndDelete bf st id).1.shares =
      st.shares.filter (fun s => s.id != id) := by
  unfold findByIdAndDelete
  cases h : findById st.shares id with
  | none => exact Or.inl rfl
  | some doc =>
    right
    cases hp : doc.supabaseFilePath with
    | none => simp only [hp]
    | some p => simp only [hp, deleteFile_shares]

theorem findByIdAndDelete_id_absent (bf : String → Bool) (st : SysState)
    (id : Nat) :
    ∀ s' ∈ (findByIdAndDelete bf st id).1.shares, s'.id ≠ id := by
  intro s' hs' he
  unfold findByIdAndDelete at hs'
  cases hq : findById st.shares id with
  | none =>
    simp only [hq] at hs'
    have := List.find?_eq_none.mp hq s' hs'
    simp [he] at this
  | some doc =>
    simp only [hq] at hs'
    cases hp : doc.supabaseFilePath with
    | none =>
      simp only [hp] at hs'
      have := (List.mem_filter.mp hs').2
      simp [he] at this
    | some p =>
      simp only [hp, deleteFile_shares] at hs'
      have := (List.mem_filter.mp hs').2
      simp [he] at this

theorem findByIdAndDelete_events (bf : String → Bool) (st : SysState)
    (id : Nat) (doc : Share) (hdoc : findById st.shares id = some doc)
    (p : String) (hp : doc.supabaseFilePath = some p) :
    (findByIdAndDelete bf st id).2 = [Event.blobDel p, Event.metaDel id] := by
  unfold findByIdAndDelete
  rw [hdoc]
  simp [hp]

theorem cleanupItem_shares_sub (bf : String → Bool) (acc : LoopAcc)
    (s : Share) :
    ((cleanupItem bf acc s).st.shares).Sublist acc.st.shares := by
  have key : ∀ st0 : SysState, st0.shares = acc.st.shares →
      ((findByIdAndDelete bf st0 s.id).1.shares).Sublist acc.st.shares := by
    intro st0 h0
    rcases findByIdAndDelete_shares_cases bf st0 s.id with h | h <;>
      rw [h, h0] <;>
      first
      | exact List.Sublist.refl _
      | exact List.filter_sublist _
  unfold cleanupItem
  cases hp : s.supabaseFilePath with
  | none => exact key acc.st rfl
  | some p =>
    simp only []
    split <;> exact key _ (deleteFile_shares bf p acc.st)

theorem cleanupItem_id_absent (bf : String → Bool) (acc : LoopAcc) (s : Share) :
    ∀ s' ∈ (cleanupItem bf acc s).st.shares, s'.id ≠ s.id := by
  intro s' hs'
  unfold cleanupItem at hs'
  revert hs'
  cases hp : s.supabaseFilePath with
  | none => exact fun hs' => findByIdAndDelete_id_absent bf acc.st s.id s' hs'
  | some p =>
    simp only []
    split <;> exact fun hs' => findByIdAndDelete_id_absent bf _ s.id s' hs'

theorem cleanupItem_mem_preserved (bf : String → Bool) (acc : LoopAcc)
    (s : Share) (y : Share) (hy : y ∈ acc.st.shares) (hne : y.id ≠ s.id) :
    y ∈ (cleanupItem bf acc s).st.shares := by
  have key : ∀ st0 : SysState, st0.shares = acc.st.shares →
      y ∈ (findByIdAndDelete bf st0 s.id).1.shares := by
    intro st0 h0
    rcases findByIdAndDelete_shares_cases bf st0 s.id with h | h <;>
      rw [h, h0] <;>
      first
      | exact hy
      | exact List.mem_filter.mpr ⟨hy, by simp [hne]⟩
  unfold cleanupItem
  cases hp : s.supabaseFilePath with
  | none => exact key acc.st rfl
  | some p =>
    simp only []
    split <;> exact key _ (deleteFile_shares bf p acc.st)

theorem cleanupItem_deletedCount (bf : String → Bool) (acc : LoopAcc)
    (s : Share) :
    (cleanupItem bf acc s).deletedCount = acc.deletedCount + 1 := by
  unfold cleanupItem
  cases hp : s.supabaseFilePath with
  | none => rfl
  | some p =>
    simp only []
    split <;> rfl

theorem cleanupItem_fileCount (bf : String → Bool) (acc : LoopAcc) (s : Share) :
    (cleanupItem bf acc s).fileDeletedCount =
      acc.fileDeletedCount + (if fileDelPred bf s then 1 else 0) := by
  unfold cleanupItem fileDelPred
  cases hp : s.supabaseFilePath with
  | none => rfl
  | some p =>
    simp only [deleteFile_fst]
    by_cases hb : bf p <;> simp [hb]

theorem cleanupItem_errors (bf : String → Bool) (acc : LoopAcc) (s : Share) :
    ∃ e, (cleanupItem bf acc s).errors = acc.errors ++ e := by
  unfold cleanupItem
  cases hp : s.supabaseFilePath with
  | none => exact ⟨[], by simp⟩
  | some p =>
    simp only [deleteFile_fst]
    by_cases hb : bf p
    · exact ⟨[failMsg p], by simp [hb]⟩
    · exact ⟨[], by simp [hb]⟩

theorem cleanupItem_err_mem (bf : String → Bool) (acc : LoopAcc) (s : Share)
    (p : String) (hp : s.supabaseFilePath = some p) (hb : bf p = true) :
    failMsg p ∈ (cleanupItem bf acc s).errors := by
  unfold cleanupItem
  simp only [hp, deleteFile_fst, hb, if_true]
  simp

theorem cleanupItem_trace (bf : String → Bool) (acc : LoopAcc) (s : Share) :
    ∃ e, (cleanupItem bf acc s).trace = acc.trace ++ e := by
  unfold cleanupItem
  cases hp : s.supabaseFilePath with
  | none => exact ⟨_, rfl⟩
  | some p =>
    simp only [deleteFile_fst]
    refine ⟨[Event.blobDel p] ++
      (findByIdAndDelete bf (deleteFile bf p acc.st).2 s.id).2, ?_⟩
    by_cases hb : bf p <;> simp [hb, List.append_assoc]

theorem cleanupItem_item_trace (bf : String → Bool) (acc : LoopAcc) (s : Share)
    (p : String) (hmem : s ∈ acc.st.shares)
    (hnd : (acc.st.shares.map Share.id).Nodup)
    (hp : s.supabaseFilePath = some p) :
    (cleanupItem bf acc s).trace =
      acc.trace ++ [Event.blobDel p, Event.blobDel p, Event.metaDel s.id] := by
  have hfind : findById acc.st.shares s.id = some s := findById_of_nodup _ s hnd hmem
  have hev : ∀ st0 : SysState, st0.shares = acc.st.shares →
      (findByIdAndDelete bf st0 s.id).2 = [Event.blobDel p, Event.metaDel s.id] := by
    intro st0 h0
    exact findByIdAndDelete_events bf st0 s.id s (by rw [findById, h0]; exact hfind) p hp
  unfold cleanupItem
  simp only [hp, deleteFile_fst]
  by_cases hb : bf p <;> simp only [hb, if_true, if_false, Bool.false_eq_true]
  · rw [hev _ (deleteFile_shares bf p acc.st)]
    simp
  · rw [hev _ (deleteFile_shares bf p acc.st)]
    simp

theorem foldl_cleanup_trace_prefix (bf : String → Bool) (l : List Share)
    (acc : LoopAcc) :
    ∃ e, (l.foldl (cleanupItem bf) acc).trace = acc.trace ++ e := by
  induction l generalizing acc with
  | nil => exact ⟨[], by simp⟩
  | cons x xs ih =>
    obtain ⟨e1, he1⟩ := cleanupItem_trace bf acc x
    obtain ⟨e2, he2⟩ := ih (cleanupItem bf acc x)
    exact ⟨e1 ++ e2, by rw [List.foldl_cons, he2, he1, List.append_assoc]⟩

theorem foldl_cleanup_shares_mem (bf : String → Bool) (l : List Share)
    (acc : LoopAcc) (s' : Share) :
    s' ∈ (l.foldl (cleanupItem bf) acc).st.shares → s' ∈ acc.st.shares := by
  induction l generalizing acc with
  | nil => intro h; simpa using h
  | cons x xs ih =>
    intro h
    rw [List.foldl_cons] at h
    exact (cleanupItem_shares_sub bf acc x).subset (ih (cleanupItem bf acc x) h)

theorem foldl_cleanup_deletedCount (bf : String → Bool) (l : List Share)
    (acc : LoopAcc) :
    (l.foldl (cleanupItem bf) acc).deletedCount = acc.deletedCount + l.length := by
  induction l generalizing acc with
  | nil => simp
  | cons x xs ih =>
    rw [List.foldl_cons, ih, cleanupItem_deletedCount]
    simp [Nat.add_assoc, Nat.add_comm 1 xs.length]

theorem foldl_cleanup_fileCount (bf : String → Bool) (l : List Share)
    (acc : LoopAcc) :
    (l.foldl (cleanupItem bf) acc).fileDeletedCount =
      acc.fileDeletedCount + l.countP (fileDelPred bf) := by
  induction l generalizing acc with
  | nil => simp
  | cons x xs ih =>
    rw [List.foldl_cons, ih, cleanupItem_fileCount, List.countP_cons]
    by_cases hb : fileDelPred bf x <;> simp [hb] <;> omega

theorem foldl_cleanup_errors_mem (bf : String → Bool) (l : List Share)
    (acc : LoopAcc) (e : String) (he : e ∈ acc.errors) :
    e ∈ (l.foldl (cleanupItem bf) acc).errors := by
  induction l generalizing acc with
  | nil => simpa using he
  | cons x xs ih =>
    rw [List.foldl_cons]
    obtain ⟨e1, he1⟩ := cleanupItem_errors bf acc x
    exact ih (cleanupItem bf acc x) (by rw [he1]; exact List.mem_append_left _ he)

theorem cleanup_order_aux (bf : String → Bool) (l : List Share) :
    ∀ (acc : LoopAcc), (∀ x ∈ l, x ∈ acc.st.shares) →
    (acc.st.shares.map Share.id).Nodup → (l.map Share.id).Nodup →
    ∀ s ∈ l, ∀ p, s.supabaseFilePath = some p →
    ∃ i j : Nat, i < j ∧
      (l.foldl (cleanupItem bf) acc).trace[i]? = some (Event.blobDel p) ∧
      (l.foldl (cleanupItem bf) acc).trace[j]? = some (Event.metaDel s.id) := by
  induction l with
  | nil => intro acc _ _ _ s hs; cases hs
  | cons x xs ih =>
    intro acc hsub hnd hlnd s hs p hp
    rcases List.mem_cons.mp hs with rfl | hs'
    · have hx : s ∈ acc.st.shares := hsub s (List.mem_cons_self s xs)
      have htr := cleanupItem_item_trace bf acc s p hx hnd hp
      obtain ⟨e2, he2⟩ := foldl_cleanup_trace_prefix bf xs (cleanupItem bf acc s)
      refine ⟨acc.trace.length, acc.trace.length + 2, by omega, ?_, ?_⟩
      · rw [List.foldl_cons, he2, htr, List.append_assoc]
        have := getElem?_append_middle acc.trace
          ([Event.blobDel p, Event.blobDel p, Event.metaDel s.id] ++ e2) 0
        simpa using this
      · rw [List.foldl_cons, he2, htr, List.append_assoc]
        rw [getElem?_append_middle acc.trace
          ([Event.blobDel p, Event.blobDel p, Event.metaDel s.id] ++ e2) 2]
        simp
    · rw [List.foldl_cons]
      apply ih (cleanupItem bf acc x) _ _ _ s hs' p hp
      · intro y hy
        have hlnd' : x.id ∉ xs.map Share.id ∧ (xs.map Share.id).Nodup := by
          simp only [List.map_cons] at hlnd
          exact List.nodup_cons.mp hlnd
        have hyid : y.id ≠ x.id := by
          intro he
          exact hlnd'.1 (he ▸ List.mem_map.mpr ⟨y, hy, rfl⟩)
        exact cleanupItem_mem_preserved bf acc x y (hsub y (List.mem_cons_of_mem x hy)) hyid
      · exact ((cleanupItem_shares_sub bf acc x).map Share.id).nodup hnd
      · have hlnd' : x.id ∉ xs.map Share.id ∧ (xs.map Share.id).Nodup := by
          simp only [List.map_cons] at hlnd
          exact List.nodup_cons.mp hlnd
        exact hlnd'.2

theorem uploadContent_noContent (newId now : Nat) (body : UploadBody)
    (file : Option FileInfo) (sb : Option SupabaseFileInfo) (store : List Share)
    (h : (!truthy body.text && file.isNone) = true) :
    uploadContent newId now body file sb store =
      (.badRequest "Either text content or file must be provided", store) := by
  unfold uploadContent
  rw [if_pos h]

theorem uploadContent_noTitle (newId now : Nat) (body : UploadBody)
    (file : Option FileInfo) (sb : Option SupabaseFileInfo) (store : List Share)
    (hc : ¬ ((!truthy body.text && file.isNone) = true))
    (ht : body.title = none) :
    uploadContent newId now body file sb store =
      (.badRequest "Title is required", store) := by
  unfold uploadContent
  rw [if_neg hc, ht]

theorem uploadContent_emptyTitle (newId now : Nat) (body : UploadBody)
    (file : Option FileInfo) (sb : Option SupabaseFileInfo) (store : List Share)
    (t : String) (hc : ¬ ((!truthy body.text && file.isNone) = true))
    (ht : body.title = some t) (htr : (jsTrim t).isEmpty = true) :
    uploadContent newId now body file sb store =
      (.badRequest "Title is required", store) := by
  unfold uploadContent
  rw [if_neg hc, ht]
  simp only [htr, if_true]

/-- The share document `uploadContent` saves on the successful path. -/
def savedShare (newId now : Nat) (body : UploadBody) (file : Option FileInfo)
    (sb : Option SupabaseFileInfo) (t : String) : Share :=
  { id := newId
    title := jsTrim t
    content := if truthy body.text then body.text else none
    fileUrl := if file.isSome && sb.isSome then (sb.map (·.publicUrl)) else none
    supabaseFilePath := if file.isSome && sb.isSome then (sb.map (·.path)) else none
    originalFileName := if file.isSome && sb.isSome then (file.map (·.originalname)) else none
    fileSize := if file.isSome && sb.isSome then (file.map (·.size)) else none
    mimeType := if file.isSome && sb.isSome then (file.map (·.mimetype)) else none
    createdAt := now
    expiresAt := now + TTL }

theorem uploadContent_created (newId now : Nat) (body : UploadBody)
    (file : Option FileInfo) (sb : Option SupabaseFileInfo) (store : List Share)
    (t : String) (hc : ¬ ((!truthy body.text && file.isNone) = true))
    (ht : body.title = some t) (htr : ¬ ((jsTrim t).isEmpty = true)) :
    uploadContent newId now body file sb store =
      (.created
        { success := true
          id := newId
          shareLink := "/view/" ++ toString newId
          expiresAt := now + TTL
          title := jsTrim t
          hasText := truthy (savedShare newId now body file sb t).content
          hasFile := truthy (savedShare newId now body file sb t).fileUrl
          originalFileName := (savedShare newId now body file sb t).originalFileName
          fileSize := (savedShare newId now body file sb t).fileSize
          mimeType := (savedShare newId now body file sb t).mimeType },
       savedShare newId now body file sb t :: store) := by
  unfold uploadContent savedShare
  rw [if_neg hc, ht]
  simp only [htr, Bool.false_eq_true, if_false]

theorem truthy_if_truthy (o : Option String) :
    truthy (if truthy o = true then o else none) = truthy o := by
  by_cases hx : truthy o = true
  · rw [if_pos hx]
  · rw [if_neg hx]
    simp only [Bool.not_eq_true] at hx
    rw [hx]
    rfl

/-- C1 (counterexample): at the exact expiry instant
`now = createdAt + 3h = expiresAt` the claim demands NotFound
(`now >= expiresAt`), but `getContent` uses the strict comparison
`now > expiryTime` and still serves the record. -/
theorem C1_counterexample :
    (getContent [sampleShare] 1 none 10800000).isNotFoundOrGone = false ∧
    sampleShare.expiresAt ≤ 10800000 ∧
    sampleShare.createdAt + TTL ≤ 10800000 := by
  decide

/-- C1 (amended): `getContent` returns NotFound (404/410) iff the id is
unknown or the current time is strictly past `createdAt + 3h`;
otherwise it returns the record's content. -/
theorem C1_get_notfound_iff (store : List Share) (id : Nat)
    (pw : Option String) (now : Nat) :
    ((getContent store id pw now).isNotFoundOrGone = true ↔
      findById store id = none ∨
        ∃ s, findById store id = some s ∧ s.createdAt + TTL < now) ∧
    (∀ s, findById store id = some s → ¬ s.createdAt + TTL < now →
      ∃ p, getContent store id pw now = .ok p ∧ p.id = s.id ∧
        p.title = s.title ∧
        p.text = (if truthy s.content then s.content else none)) := by
  constructor
  · unfold getContent
    cases h : findById store id with
    | none => simp [GetResult.isNotFoundOrGone]
    | some s =>
      by_cases he : s.createdAt + TTL < now
      · simp [he, GetResult.isNotFoundOrGone]
      · simp [he, GetResult.isNotFoundOrGone]
  · intro s hs hlive
    unfold getContent
    rw [hs]
    simp only [hlive, if_false]
    exact ⟨_, rfl, rfl, rfl, rfl⟩

/-- C1 (witness): on a concrete live record the amended theorem yields
the record's content. -/
theorem C1_get_notfound_iff_witness :
    ∃ p, getContent [sampleShare] 1 none 5 = .ok p ∧ p.id = sampleShare.id ∧
      p.title = sampleShare.title ∧
      p.text = (if truthy sampleShare.content then sampleShare.content else none) :=
  (C1_get_notfound_iff [sampleShare] 1 none 5).2 sampleShare (by decide) (by decide)

/-- C2 (code evaluation): a record uploaded with `password:"secret"` is
created with no password stored (the schema has no such field), and a
subsequent `getContent` with no password returns `200` with the full
content — the controller has no `401 {passwordRequired:true}` branch
at all. -/
theorem C2_no_password_check :
    (uploadContent 1 0
        { text := some "hello", title := some "t", password := some "secret" }
        none none []).1 =
      .created { success := true, id := 1, shareLink := "/view/1",
                 expiresAt := TTL, title := "t", hasText := true,
                 hasFile := false, originalFileName := none,
                 fileSize := none, mimeType := none } ∧
    getContent
        (uploadContent 1 0
          { text := some "hello", title := some "t", password := some "secret" }
          none none []).2 1 none 1000 =
      .ok { success := true, id := 1, title := "t", createdAt := 0,
            expiresAt := TTL, text := some "hello", file := none } := by
  decide

/-- C4 (counterexample): on the 5th upload in a window
(`count - delayAfter = 2`) the claimed formula
`min(maxDelayMs, baseDelayMs * (count - delayAfter))` gives 2000 ms,
but the configured `delayMs: () => 1000` applies a constant 1000 ms. -/
theorem C4_counterexample :
    slowDownDelay uploadSpeedLimit 5 = 1000 ∧
    min uploadSpeedLimit.maxDelayMs (1000 * (5 - uploadSpeedLimit.delayAfter)) = 2000 ∧
    slowDownDelay uploadSpeedLimit 5 ≠
      min uploadSpeedLimit.maxDelayMs (1000 * (5 - uploadSpeedLimit.delayAfter)) := by
  refine ⟨rfl, rfl, ?_⟩
  decide

/-- C4 (amended): the upload speed limiter's delay is the constant
1000 ms (`min(maxDelayMs, baseDelayMs)` with the cap never binding)
for every request beyond the `delayAfter` threshold, and zero
otherwise — it does not grow with the count. -/
theorem C4_constant_delay (used : Nat) :
    slowDownDelay uploadSpeedLimit used =
      if uploadSpeedLimit.delayAfter < used then
        min 1000 uploadSpeedLimit.maxDelayMs
      else 0 := by
  by_cases h : uploadSpeedLimit.delayAfter < used <;>
    simp [slowDownDelay, uploadSpeedLimit, createSpeedLimit, h]

/-- C4 (witness): at 10 requests the delay is 1000 ms, not the claimed
7000 ms. -/
theorem C4_constant_delay_witness :
    slowDownDelay uploadSpeedLimit 10 = 1000 := by
  simpa using C4_constant_delay 10

/-- C6 (counterexample): for a request without a `DNT` header the DNT
component is the empty string, not the claimed literal `"unknown"`. -/
theorem C6_counterexample :
    baseReq.dnt = none ∧
    (components baseReq).getD 5 "?" = "" ∧
    (components baseReq).getD 5 "?" ≠ "unknown" := by
  decide

/-- C6 (amended): the fingerprint components substitute `"unknown"` for a
missing address chain and for the missing primary headers
(User-Agent, Accept-Language, Accept-Encoding, Connection), but the
empty string for the missing optional headers (DNT,
Upgrade-Insecure-Requests, Sec-Fetch-Site/Mode/Dest,
X-Screen-Resolution, X-Timezone); the generator is total. -/
theorem C6_fallbacks (r : Req) :
    (r.ip = none → r.connectionRemoteAddress = none →
      r.socketRemoteAddress = none → (components r).getD 0 "?" = "unknown") ∧
    (r.userAgent = none → (components r).getD 1 "?" = "unknown") ∧
    (r.acceptLanguage = none → (components r).getD 2 "?" = "unknown") ∧
    (r.acceptEncoding = none → (components r).getD 3 "?" = "unknown") ∧
    (r.connection = none → (components r).getD 4 "?" = "unknown") ∧
    (r.dnt = none → (components r).getD 5 "?" = "") ∧
    (r.upgradeInsecureRequests = none → (components r).getD 6 "?" = "") ∧
    (r.secFetchSite = none → (components r).getD 7 "?" = "") ∧
    (r.secFetchMode = none → (components r).getD 8 "?" = "") ∧
    (r.secFetchDest = none → (components r).getD 9 "?" = "") ∧
    (r.xScreenResolution = none → (components r).getD 10 "?" = "") ∧
    (r.xTimezone = none → (components r).getD 11 "?" = "") := by
  refine ⟨?_, ?_, ?_, ?_, ?_, ?_, ?_, ?_, ?_, ?_, ?_, ?_⟩ <;>
    intros <;> simp_all [components, jsOr]

/-- C6 (witness): the amended fallback behaviour evaluated on the
all-headers-missing request. -/
theorem C6_fallbacks_witness :
    (components baseReq).getD 0 "?" = "unknown" ∧
    (components baseReq).getD 1 "?" = "unknown" ∧
    (components baseReq).getD 5 "?" = "" ∧
    (components baseReq).getD 11 "?" = "" :=
  ⟨(C6_fallbacks baseReq).1 rfl rfl rfl,
   (C6_fallbacks baseReq).2.1 rfl,
   (C6_fallbacks baseReq).2.2.2.2.2.1 rfl,
   (C6_fallbacks baseReq).2.2.2.2.2.2.2.2.2.2.2 rfl⟩

/-- C7 (counterexample): a request with no User-Agent header and a
request with User-Agent literally `"unknown"` differ only in the
User-Agent header, yet the `"unknown"` fallback makes their rate-limit
keys identical. -/
theorem C7_counterexample :
    sameExceptUA baseReq reqLiteralUnknownUA ∧
    baseReq.userAgent ≠ reqLiteralUnknownUA.userAgent ∧
    getEnhancedRateLimitKey baseReq = getEnhancedRateLimitKey reqLiteralUnknownUA := by
  refine ⟨by unfold sameExceptUA; decide, by decide, ?_⟩
  have hc : components baseReq = components reqLiteralUnknownUA := by decide
  have hr : getRealIP baseReq = getRealIP reqLiteralUnknownUA := rfl
  unfold getEnhancedRateLimitKey generateDeviceFingerprint
  rw [hc, hr]

/-- C7 (amended): the key generator is a pure function of the
`(address, headers)` tuple (identical tuples yield identical keys
independently of arrival time and request order), and two tuples that
differ only in User-Agent yield different digest inputs whenever their
normalized User-Agent components (absent/empty becoming `"unknown"`)
differ — key-level distinctness then holds up to collisions of the
12-character truncated digest. -/
theorem C7_fingerprint_determinism :
    (∀ r1 r2 : Req, sameTuple r1 r2 →
      getEnhancedRateLimitKey r1 = getEnhancedRateLimitKey r2) ∧
    (∀ r1 r2 : Req, sameExceptUA r1 r2 →
      jsOr r1.userAgent "unknown" ≠ jsOr r2.userAgent "unknown" →
      joinBar (components r1) ≠ joinBar (components r2)) := by
  constructor
  · intro r1 r2 h
    obtain ⟨h1, h2, h3, h4, h5, h6, h7, h8, h9, h10, h11, h12, h13, h14, h15,
      h16, h17, h18⟩ := h
    unfold getEnhancedRateLimitKey generateDeviceFingerprint getRealIP
      components xffFirst
    rw [h1, h2, h3, h4, h5, h6, h7, h8, h9, h10, h11, h12, h13, h14, h15,
      h16, h17, h18]
  · intro r1 r2 hs hne heq
    obtain ⟨h1, h2, h3, h5, h6, h7, h8, h9, h10, h11, h12, h13, h14, h15,
      h16, h17, h18⟩ := hs
    apply hne
    simp only [components, joinBar] at heq
    rw [h1, h2, h3, h5, h6, h7, h8, h9, h10, h11, h12, h13, h14] at heq
    have hd := congrArg String.data heq
    simp only [String.data_append, List.append_assoc] at hd
    have hd1 := List.append_cancel_left hd
    have hd2 := List.append_cancel_left hd1
    exact String.ext (List.append_cancel_right hd2)

/-- C7 (witness): an identical tuple arriving at a different time and
position yields the same key, and Chrome vs Firefox User-Agents yield
different digest inputs. -/
theorem C7_fingerprint_determinism_witness :
    getEnhancedRateLimitKey laterReq = getEnhancedRateLimitKey baseReq ∧
    joinBar (components reqChromeUA) ≠ joinBar (components reqFirefoxUA) :=
  ⟨C7_fingerprint_determinism.1 laterReq baseReq (by unfold sameTuple; decide),
   C7_fingerprint_determinism.2 reqChromeUA reqFirefoxUA
     (by unfold sameExceptUA; decide) (by decide)⟩

/-- C8 (counterexample): with a single expired record in the store, the
listing returns no items, yet `totalShares` is 1 while the set of live
records is empty — the pagination numbers count expired records. -/
theorem C8_counterexample :
    (getAllShares [sampleShare] none none (2 * TTL)).shares = [] ∧
    (getAllShares [sampleShare] none none (2 * TTL)).pagination.totalShares = 1 ∧
    ([sampleShare].filter (fun s => decide (2 * TTL ≤ s.createdAt + TTL))).length = 0 ∧
    (getAllShares [sampleShare] none none (2 * TTL)).pagination.totalShares ≠
      ([sampleShare].filter (fun s => decide (2 * TTL ≤ s.createdAt + TTL))).length := by
  decide

/-- C8 (amended): every returned item is live at the time of the call and
the items are ordered newest-first, but the pagination numbers
(`totalShares`, `hasNext`, and hence `totalPages`) are computed over
all stored records, expired ones included, and the page window is
sliced before filtering. -/
theorem C8_listing (store : List Share) (pq lq : Option Nat) (now : Nat) :
    (∀ p ∈ (getAllShares store pq lq now).shares, now ≤ p.createdAt + TTL) ∧
    List.Pairwise (fun a b => b.createdAt ≤ a.createdAt)
      (getAllShares store pq lq now).shares ∧
    (getAllShares store pq lq now).pagination.totalShares = store.length ∧
    (getAllShares store pq lq now).pagination.hasNext =
      decide (jsOrNum pq 1 * jsOrNum lq 20 < store.length) := by
  refine ⟨?_, ?_, rfl, rfl⟩
  · intro p hp
    simp only [getAllShares] at hp
    obtain ⟨s, hs, hps⟩ := List.mem_map.mp hp
    have hlive := of_decide_eq_true (List.mem_filter.mp hs).2
    subst hps
    simpa [preview] using hlive
  · have h1 : List.Pairwise newerFirst (sortByCreatedDesc store) :=
      List.sorted_insertionSort newerFirst store
    have hsub :
        ((((sortByCreatedDesc store).drop
            ((jsOrNum pq 1 - 1) * jsOrNum lq 20)).take (jsOrNum lq 20)).filter
          (fun s => decide (now ≤ s.createdAt + TTL))).Sublist
          (sortByCreatedDesc store) :=
      (List.filter_sublist _).trans
        ((List.take_sublist _ _).trans (List.drop_sublist _ _))
    have h2 := h1.sublist hsub
    exact List.pairwise_map.mpr (h2.imp (fun h => h))

/-- C8 (witness): the amended listing facts evaluated on a concrete
two-record store with both records live. -/
theorem C8_listing_witness :
    100 ≤ (preview shareB).createdAt + TTL ∧
    List.Pairwise (fun a b => b.createdAt ≤ a.createdAt)
      (getAllShares [sampleShare, shareB] none none 100).shares ∧
    (getAllShares [sampleShare, shareB] none none 100).pagination.totalShares = 2 :=
  ⟨(C8_listing [sampleShare, shareB] none none 100).1 (preview shareB) (by decide),
   (C8_listing [sampleShare, shareB] none none 100).2.1,
   (C8_listing [sampleShare, shareB] none none 100).2.2.1⟩

/-- C9: `uploadContent` fails with 400 (and creates no record) exactly
when neither text nor file is provided or the title is missing/empty
after trimming; otherwise it creates a record and returns 201 with the
documented response shape. -/
theorem C9_upload_validation (newId now : Nat) (body : UploadBody)
    (file : Option FileInfo) (sb : Option SupabaseFileInfo)
    (store : List Share) :
    ((uploadContent newId now body file sb store).1.isBadRequest = true ↔
      (truthy body.text = false ∧ file = none) ∨ body.title = none ∨
        ∃ t, body.title = some t ∧ (jsTrim t).isEmpty = true) ∧
    ((uploadContent newId now body file sb store).1.isBadRequest = true →
      (uploadContent newId now body file sb store).2 = store) ∧
    (∀ t, body.title = some t → (jsTrim t).isEmpty = false →
      (truthy body.text = true ∨ file ≠ none) →
      ∃ s resp,
        uploadContent newId now body file sb store = (.created resp, s :: store) ∧
        resp.success = true ∧ resp.id = newId ∧
        resp.shareLink = "/view/" ++ toString newId ∧
        resp.expiresAt = now + TTL ∧ resp.title = jsTrim t ∧
        resp.hasText = truthy body.text ∧
        s.id = newId ∧ s.createdAt = now ∧ s.expiresAt = now + TTL ∧
        s.title = jsTrim t) := by
  by_cases hc : (!truthy body.text && file.isNone) = true
  · have hcp : truthy body.text = false ∧ file = none := by
      rcases Bool.and_eq_true_iff.mp hc with ⟨h1, h2⟩
      exact ⟨by simpa using h1, Option.isNone_iff_eq_none.mp h2⟩
    rw [uploadContent_noContent newId now body file sb store hc]
    refine ⟨?_, ?_, ?_⟩
    · simp [UploadResult.isBadRequest, hcp.1, hcp.2]
    · intro _; rfl
    · intro t _ _ hcf
      rcases hcf with h | h
      · rw [hcp.1] at h; cases h
      · exact absurd hcp.2 h
  · cases ht : body.title with
    | none =>
      rw [uploadContent_noTitle newId now body file sb store hc ht]
      refine ⟨?_, ?_, ?_⟩
      · simp [UploadResult.isBadRequest]
      · intro _; rfl
      · intro t ht' _ _; exact absurd ht' (by simp)
    | some t =>
      by_cases htr : (jsTrim t).isEmpty = true
      · rw [uploadContent_emptyTitle newId now body file sb store t hc ht htr]
        refine ⟨?_, ?_, ?_⟩
        · simp only [UploadResult.isBadRequest, true_iff]
          exact Or.inr (Or.inr ⟨t, rfl, htr⟩)
        · intro _; rfl
        · intro t' ht' htr' _
          injection ht' with he
          subst he
          rw [htr] at htr'
          cases htr'
      · rw [uploadContent_created newId now body file sb store t hc ht htr]
        refine ⟨?_, ?_, ?_⟩
        · simp only [UploadResult.isBadRequest, Bool.false_eq_true, false_iff]
          rintro (⟨h1, h2⟩ | h | ⟨t', ht', htr'⟩)
          · rw [h1, h2] at hc; simp at hc
          · simp at h
          · injection ht' with he
            subst he
            exact htr htr'
        · intro hb; cases hb
        · intro t' ht' htr' _
          injection ht' with he
          subst he
          exact ⟨savedShare newId now body file sb t, _, rfl, rfl, rfl, rfl, rfl,
            rfl, truthy_if_truthy body.text, rfl, rfl, rfl, rfl⟩

/-- C9 (witness): a concrete upload with an empty body is rejected with
the store unchanged, and a concrete text upload is created with the
documented response fields. -/
theorem C9_upload_validation_witness :
    ((uploadContent 1 0 { text := none, title := some "t", password := none }
        none none []).1.isBadRequest = true ↔
      (truthy (none : Option String) = false ∧ (none : Option FileInfo) = none) ∨
        (some "t" : Option String) = none ∨
        ∃ t, (some "t" : Option String) = some t ∧ (jsTrim t).isEmpty = true) ∧
    (∃ s resp,
      uploadContent 1 0 { text := some "hello", title := some " t ", password := none }
          none none [] = (.created resp, s :: []) ∧
      resp.success = true ∧ resp.id = 1 ∧ resp.shareLink = "/view/" ++ toString 1 ∧
      resp.expiresAt = 0 + TTL ∧ resp.title = jsTrim " t " ∧
      resp.hasText = truthy (some "hello") ∧
      s.id = 1 ∧ s.createdAt = 0 ∧ s.expiresAt = 0 + TTL ∧ s.title = jsTrim " t ") :=
  ⟨(C9_upload_validation 1 0 { text := none, title := some "t", password := none }
      none none []).1,
   (C9_upload_validation 1 0 { text := some "hello", title := some " t ", password := none }
      none none []).2.2 " t " rfl (by decide) (Or.inl (by decide))⟩

/-- C5: at creation the stored `expiresAt` equals `createdAt + TTL`
(TTL = 10800000 ms) and the 201 response reports the same instant; no
later operation mutates a stored record — the Reaper only ever removes
records, every surviving record was in the store before, and the read
paths take the store immutably. -/
theorem C5_ttl_set_once :
    (∀ newId now body file sb store resp store2,
      uploadContent newId now body file sb store = (.created resp, store2) →
      ∃ s, store2 = s :: store ∧ s.createdAt = now ∧
        s.expiresAt = s.createdAt + TTL ∧ resp.expiresAt = s.createdAt + TTL) ∧
    (∀ bf st now2 s', s' ∈ (cleanupExpiredShares bf st now2).2.1.shares →
      s' ∈ st.shares) := by
  constructor
  · intro newId now body file sb store resp store2 h
    by_cases hc : (!truthy body.text && file.isNone) = true
    · rw [uploadContent_noContent newId now body file sb store hc] at h
      exact absurd (congrArg Prod.fst h) (by simp)
    · cases ht : body.title with
      | none =>
        rw [uploadContent_noTitle newId now body file sb store hc ht] at h
        exact absurd (congrArg Prod.fst h) (by simp)
      | some t =>
        by_cases htr : (jsTrim t).isEmpty = true
        · rw [uploadContent_emptyTitle newId now body file sb store t hc ht htr] at h
          exact absurd (congrArg Prod.fst h) (by simp)
        · rw [uploadContent_created newId now body file sb store t hc ht htr] at h
          rw [Prod.mk.injEq] at h
          obtain ⟨h1, h2⟩ := h
          injection h1 with h1
          refine ⟨savedShare newId now body file sb t, h2.symm, rfl, rfl, ?_⟩
          rw [← h1]
          rfl
  · intro bf st now2 s' hs'
    exact foldl_cleanup_shares_mem bf _ _ s' hs'

/-- C5 (witness): a concrete upload stores `expiresAt = createdAt + TTL`
and reports the same instant; a concrete live record survives a Reaper
run unchanged. -/
theorem C5_ttl_set_once_witness :
    (∃ s, [sampleShare] = s :: ([] : List Share) ∧ s.createdAt = 0 ∧
      s.expiresAt = s.createdAt + TTL ∧
      ({ success := true, id := 1, shareLink := "/view/1", expiresAt := TTL,
         title := "t", hasText := true, hasFile := false,
         originalFileName := none, fileSize := none,
         mimeType := none } : UploadResponse).expiresAt = s.createdAt + TTL) ∧
    sampleShare ∈ ({ shares := [sampleShare], blobs := [] } : SysState).shares :=
  ⟨C5_ttl_set_once.1 1 0
      { text := some "hello", title := some "t", password := none } none none [] _ _
      (by decide),
   C5_ttl_set_once.2 (fun _ => false) { shares := [sampleShare], blobs := [] } 5
      sampleShare (by decide)⟩

/-- C10: the read paths (`getContent`, `serveFile`) decide expiry solely
from `createdAt + 10800000` and are invariant under arbitrary changes
to the stored `expiresAt` field, while the Reaper selects records by
stored `expiresAt < now`; for a given record the two predicates agree
at every instant if and only if the stored `expiresAt` equals
`createdAt + 10800000`. -/
theorem C10_expiry_predicates :
    (∀ store id pw now (f : Share → Nat),
      getContent (store.map (fun s => { s with expiresAt := f s })) id pw now =
        getContent store id pw now) ∧
    (∀ fs dn store id now (f : Share → Nat),
      serveFile fs dn (store.map (fun s => { s with expiresAt := f s })) id now =
        serveFile fs dn store id now) ∧
    (∀ shares now s, s ∈ expiredQuery shares now ↔
      s ∈ shares ∧ s.expiresAt < now) ∧
    (∀ s : Share,
      (∀ now, s.createdAt + TTL < now ↔ s.expiresAt < now) ↔
        s.expiresAt = s.createdAt + TTL) := by
  refine ⟨?_, ?_, ?_, ?_⟩
  · intro store id pw now f
    unfold getContent findById
    rw [List.find?_map]
    have hpred : ((fun s : Share => s.id == id) ∘
        (fun s => { s with expiresAt := f s })) = (fun s : Share => s.id == id) := rfl
    rw [hpred]
    cases h : store.find? (fun s => s.id == id) <;> rfl
  · intro fs dn store id now f
    unfold serveFile findById
    rw [List.find?_map]
    have hpred : ((fun s : Share => s.id == id) ∘
        (fun s => { s with expiresAt := f s })) = (fun s : Share => s.id == id) := rfl
    rw [hpred]
    cases h : store.find? (fun s => s.id == id) <;> rfl
  · intro shares now s
    unfold expiredQuery
    rw [List.mem_filter]
    simp
  · intro s
    constructor
    · intro h
      have h1 := (h (s.createdAt + TTL + 1)).mp (by omega)
      have h2 := (h (s.expiresAt + 1)).mpr (by omega)
      omega
    · intro h now
      rw [h]

/-- C10 (witness): the conjuncts evaluated at concrete inputs — zeroing
the stored `expiresAt` does not change a concrete read, the membership
characterisation of the Reaper query holds for a concrete expired
record, and the agreement equivalence holds for `sampleShare`. -/
theorem C10_expiry_predicates_witness :
    (getContent ([sampleShare].map (fun s => { s with expiresAt := 0 })) 1 none 5 =
      getContent [sampleShare] 1 none 5) ∧
    (sampleShare ∈ expiredQuery [sampleShare] (2 * TTL) ↔
      sampleShare ∈ [sampleShare] ∧ sampleShare.expiresAt < 2 * TTL) ∧
    ((∀ now, sampleShare.createdAt + TTL < now ↔ sampleShare.expiresAt < now) ↔
      sampleShare.expiresAt = sampleShare.createdAt + TTL) :=
  ⟨C10_expiry_predicates.1 [sampleShare] 1 none 5 (fun _ => 0),
   C10_expiry_predicates.2.2.1 [sampleShare] (2 * TTL) sampleShare,
   C10_expiry_predicates.2.2.2 sampleShare⟩

/-- C3: in a Reaper run, for every expired record carrying a blob path
the blob delete is issued strictly before that record's metadata
delete; a failed blob delete is recorded in the run's error list but
every expired record's metadata is deleted regardless; the summary
reports `success`, `totalExpired`, `deletedShares` (all expired
records), `deletedFiles` (the successful blob deletes) and the
accumulated errors; and a run finding zero expired records returns
success with zero counts, no errors, and an unchanged state. -/
theorem C3_reaper_run (bf : String → Bool) (st : SysState) (now : Nat)
    (hnd : (st.shares.map Share.id).Nodup) :
    (∀ s ∈ expiredQuery st.shares now, ∀ p, s.supabaseFilePath = some p →
      ∃ i j : Nat, i < j ∧
        (cleanupExpiredShares bf st now).2.2[i]? = some (Event.blobDel p) ∧
        (cleanupExpiredShares bf st now).2.2[j]? = some (Event.metaDel s.id)) ∧
    (∀ s ∈ expiredQuery st.shares now,
      ∀ s' ∈ (cleanupExpiredShares bf st now).2.1.shares, s'.id ≠ s.id) ∧
    (∀ s ∈ expiredQuery st.shares now, ∀ p, s.supabaseFilePath = some p →
      bf p = true → failMsg p ∈ (cleanupExpiredShares bf st now).1.errors) ∧
    (cleanupExpiredShares bf st now).1.success = true ∧
    (cleanupExpiredShares bf st now).1.totalExpired =
      (expiredQuery st.shares now).length ∧
    (cleanupExpiredShares bf st now).1.deletedShares =
      (expiredQuery st.shares now).length ∧
    (cleanupExpiredShares bf st now).1.deletedFiles =
      (expiredQuery st.shares now).countP (fileDelPred bf) ∧
    (expiredQuery st.shares now = [] →
      (cleanupExpiredShares bf st now).1 =
        { success := true, deletedShares := 0, deletedFiles := 0,
          totalExpired := 0, errors := [] } ∧
      (cleanupExpiredShares bf st now).2.1 = st ∧
      (cleanupExpiredShares bf st now).2.2 = []) := by
  have hlsub : (expiredQuery st.shares now).Sublist st.shares :=
    List.filter_sublist _
  have hlnd : ((expiredQuery st.shares now).map Share.id).Nodup :=
    ((hlsub.map Share.id).nodup hnd)
  refine ⟨?_, ?_, ?_, rfl, rfl, ?_, ?_, ?_⟩
  · intro s hs p hp
    exact cleanup_order_aux bf (expiredQuery st.shares now)
      { st := st, deletedCount := 0, fileDeletedCount := 0, errors := [], trace := [] }
      (fun x hx => hlsub.subset hx) hnd hlnd s hs p hp
  · intro s hs s' hs'
    obtain ⟨l1, l2, hdec⟩ := List.append_of_mem hs
    have hs'2 : s' ∈ ((l2.foldl (cleanupItem bf)
        (cleanupItem bf (l1.foldl (cleanupItem bf)
          { st := st, deletedCount := 0, fileDeletedCount := 0,
            errors := [], trace := [] }) s))).st.shares := by
      have : (cleanupExpiredShares bf st now).2.1 =
          ((expiredQuery st.shares now).foldl (cleanupItem bf)
            { st := st, deletedCount := 0, fileDeletedCount := 0,
              errors := [], trace := [] }).st := rfl
      rw [this, hdec, List.foldl_append, List.foldl_cons] at hs'
      exact hs'
    exact cleanupItem_id_absent bf _ s s'
      (foldl_cleanup_shares_mem bf l2 _ s' hs'2)
  · intro s hs p hp hb
    obtain ⟨l1, l2, hdec⟩ := List.append_of_mem hs
    have : (cleanupExpiredShares bf st now).1.errors =
        ((expiredQuery st.shares now).foldl (cleanupItem bf)
          { st := st, deletedCount := 0, fileDeletedCount := 0,
            errors := [], trace := [] }).errors := rfl
    rw [this, hdec, List.foldl_append, List.foldl_cons]
    exact foldl_cleanup_errors_mem bf l2 _ _
      (cleanupItem_err_mem bf _ s p hp hb)
  · have : (cleanupExpiredShares bf st now).1.deletedShares =
        ((expiredQuery st.shares now).foldl (cleanupItem bf)
          { st := st, deletedCount := 0, fileDeletedCount := 0,
            errors := [], trace := [] }).deletedCount := rfl
    rw [this, foldl_cleanup_deletedCount]
    simp
  · have : (cleanupExpiredShares bf st now).1.deletedFiles =
        ((expiredQuery st.shares now).foldl (cleanupItem bf)
          { st := st, deletedCount := 0, fileDeletedCount := 0,
            errors := [], trace := [] }).fileDeletedCount := rfl
    rw [this, foldl_cleanup_fileCount]
    simp
  · intro hz
    unfold cleanupExpiredShares
    rw [hz]
    exact ⟨rfl, rfl, rfl⟩

/-- C3 (witness): a concrete run over a store holding one expired file
share and one expired text-only share, with the blob store reporting a
failure: the blob delete precedes the metadata delete in the trace,
the failure is recorded, and both records are counted as deleted. -/
theorem C3_reaper_run_witness :
    (∃ i j : Nat, i < j ∧
      (cleanupExpiredShares (fun _ => true)
        { shares := [shareB, sampleShare], blobs := ["shares/b.bin"] }
        (2 * TTL)).2.2[i]? = some (Event.blobDel "shares/b.bin") ∧
      (cleanupExpiredShares (fun _ => true)
        { shares := [shareB, sampleShare], blobs := ["shares/b.bin"] }
        (2 * TTL)).2.2[j]? = some (Event.metaDel shareB.id)) ∧
    failMsg "shares/b.bin" ∈ (cleanupExpiredShares (fun _ => true)
      { shares := [shareB, sampleShare], blobs := ["shares/b.bin"] }
      (2 * TTL)).1.errors ∧
    (cleanupExpiredShares (fun _ => true)
      { shares := [shareB, sampleShare], blobs := ["shares/b.bin"] }
      (2 * TTL)).1.deletedShares =
      (expiredQuery [shareB, sampleShare] (2 * TTL)).length := by
  have h := C3_reaper_run (fun _ => true)
    { shares := [shareB, sampleShare], blobs := ["shares/b.bin"] } (2 * TTL)
    (by decide)
  exact ⟨h.1 shareB (by decide) "shares/b.bin" rfl,
    h.2.2.1 shareB (by decide) "shares/b.bin" rfl rfl,
    h.2.2.2.2.2.1⟩

end VanishBin
